import Mathlib

/-!
Verification development for the job-agent repository.

This file gives a shallow embedding of the two core subsystems of the
repository — the ReAct control loop in `tools/agent.py` (response parsing,
context-window management, tool registry, approval gating, per-iteration
dispatch) and the multi-provider failover engine in `tools/llm_client.py` —
and proves the specification's claims about them.

Modelling conventions:
* Python strings are Lean `String`s; Python slicing/`len` act on code points,
  as Lean's `String.take`/`String.length` do.
* Python's `re` extractions used by `parse_response` are small enough that
  their leftmost-match backtracking semantics can be reproduced directly as
  recursive functions on character lists; each function documents the regex
  it implements.
* `json.loads` is a Python standard-library collaborator; it is passed to
  `parse_response` as an explicit decoder argument `jloads : String → Option JVal`
  (`none` models a raised `JSONDecodeError`).  All theorems about the parser
  hold for every decoder.
* Wall-clock time and float-valued cooldowns are modelled over `ℚ`; request
  outcomes and their durations are supplied as an explicit trace
  `Nat → ℚ × ReqOutcome`, and `time.sleep` advances the model clock.
* File-system reads become explicit `Option` arguments (`none` = file absent),
  and handler side effects are returned as data.
-/

namespace JobAgent

/-- Python's `\s` character class (ASCII range; the model's inputs are ASCII). -/
def isPySpace (c : Char) : Bool :=
  c = ' ' ∨ c = '\t' ∨ c = '\n' ∨ c = '\r' ∨ c = '\x0b' ∨ c = '\x0c'

/-- Python's `str.strip()` on a character list. -/
def pyStripList (cs : List Char) : List Char :=
  ((cs.dropWhile isPySpace).reverse.dropWhile isPySpace).reverse

/-- Python's `str.strip()`. -/
def pyStripS (s : String) : String :=
  String.mk (pyStripList s.toList)

/-- Python's `str.lower()` (ASCII case mapping; approval answers are ASCII). -/
def pyLower (s : String) : String :=
  String.mk (s.toList.map Char.toLower)

/-- Python's `str(bool)`. -/
def pyBool (b : Bool) : String := if b then "True" else "False"

/-- The suffix of `cs` following the first occurrence of `pat`, or `none`
    when `pat` does not occur (the skeleton of `re.search` for a literal). -/
def afterFirst (pat : List Char) : List Char → Option (List Char)
  | [] => if pat.isEmpty then some [] else none
  | c :: cs =>
    if pat.isPrefixOf (c :: cs) then some ((c :: cs).drop pat.length)
    else afterFirst pat cs

/-- JSON values, as produced by `json.loads`.  Python distinguishes `int`
    from `float`; the model keeps that distinction (`jfloat` over `ℚ`). -/
inductive JVal where
  | jnull
  | jbool (b : Bool)
  | jint (n : ℤ)
  | jfloat (q : ℚ)
  | jstr (s : String)
  | jarr (xs : List JVal)
  | jobj (kvs : List (String × JVal))

/-- First-match association lookup, modelling `dict.get` for the dicts the
    model constructs (which carry no duplicate keys). -/
def jlookup (kvs : List (String × JVal)) (k : String) : Option JVal :=
  (kvs.find? (fun kv => kv.1 = k)).map (·.2)

/-- Exact decimal rendering of a rational with a terminating decimal
    expansion, mirroring `str()` of the Python floats the model constructs
    (Python prints the shortest round-trip decimal of the double). -/
def decimalStr (q : ℚ) : String :=
  if q.den = 1 then toString q.num ++ ".0" else
  match (List.range 18).find? (fun k => (q * (10 : ℚ) ^ k).den = 1) with
  | some k =>
    let sgn := if q < 0 then "-" else ""
    let n := (q * (10 : ℚ) ^ k).num.natAbs
    let digits := toString n
    let digits :=
      if digits.length ≤ k then
        String.mk (List.replicate (k + 1 - digits.length) '0') ++ digits
      else digits
    sgn ++ digits.take (digits.length - k) ++ "." ++ digits.drop (digits.length - k)
  | none => toString q.num ++ "/" ++ toString q.den

/-- `str()` of a Python float. -/
def pyFloatStr (q : ℚ) : String := decimalStr q

/-- Python `'{:.0f}'` rounding: to the nearest integer, ties to even. -/
def roundHalfEven (q : ℚ) : ℤ :=
  let f := ⌊q⌋
  let r := q - (f : ℚ)
  if r < 1 / 2 then f
  else if 1 / 2 < r then f + 1
  else if Even f then f else f + 1

/-- Python `f"{x:.0f}"` for a float `x`. -/
def pyFmt0f (q : ℚ) : String := toString (roundHalfEven q)

/-- `str()` of a JSON value (scalars exactly as Python prints them;
    container reprs are abbreviated — no theorem depends on them). -/
def pyStrOfJVal : JVal → String
  | .jstr s => s
  | .jint n => toString n
  | .jfloat q => pyFloatStr q
  | .jbool b => pyBool b
  | .jnull => "None"
  | .jarr _ => "[...]"
  | .jobj _ => "\x7b...\x7d"

/-! ## Tool registry (`agent.py`, `TOOLS`)

Each entry of the Python dict maps a name to a handler `fn`, a description
and a `needs_approval` flag.  The handlers perform I/O and invoke the
out-of-scope pipeline stages, so they are abstracted: the control-loop model
takes the handler column as an explicit argument
`fns : String → AgentState → JVal → AgentState × String`.  The names,
descriptions and approval flags below are the registry's static data. -/

structure ToolInfo where
  description : String
  needs_approval : Bool
deriving DecidableEq

def TOOLS : List (String × ToolInfo) := [
  ("scrape_jobs", ⟨"Scrape job listings from hiring.cafe. Takes optional \x27method\x27 (auto/browser/api).", true⟩),
  ("parse_jobs", ⟨"Parse, normalize, deduplicate, and filter raw scraped jobs against search criteria.", false⟩),
  ("score_jobs", ⟨"Score filtered jobs against user profile (skills, experience, education). No LLM needed.", false⟩),
  ("select_jobs", ⟨"Select top N jobs from scored results. Takes \x27count\x27 (int) and optional \x27threshold\x27 (float, default 35).", true⟩),
  ("analyze_jobs", ⟨"LLM-enrich selected jobs with deeper analysis (role summary, red flags, culture). Uses LLM credits.", true⟩),
  ("generate_documents", ⟨"Generate tailored resume + cover letter PDFs for selected jobs. Uses LLM credits.", true⟩),
  ("generate_report", ⟨"Generate summary report with rankings and skill gaps at output/summary_report.md.", false⟩),
  ("read_file", ⟨"Read a file\x27s contents. Takes \x27path\x27 (relative or absolute within project).", false⟩),
  ("evaluate_document", ⟨"LLM critiques a generated document (resume/cover letter). Takes \x27path\x27 and \x27type\x27. Returns score and KEEP/REVISE/REWRITE.", false⟩),
  ("read_search_filters", ⟨"Read the current search filters YAML config.", false⟩),
  ("propose_filter_changes", ⟨"Propose changes to search filters. Takes \x27changes\x27 (dict of key:value) and \x27reason\x27. User must approve.", true⟩),
  ("list_applications", ⟨"List all generated application folders and their files.", false⟩),
  ("check_in", ⟨"Pause and ask the user a question. Takes \x27message\x27 (str) and optional \x27options\x27 (list of strings).", false⟩),
  ("finish", ⟨"End the agent loop. Takes \x27summary\x27 (str) with a final summary for the user.", false⟩)
]

/-- The registry's key list (`TOOLS.keys()`). -/
def toolNames : List String := TOOLS.map Prod.fst

/-- `TOOLS.get(action)` as used by `run_agent`. -/
def lookupTool (name : String) : Option ToolInfo :=
  (TOOLS.find? (fun kv => kv.1 = name)).map (·.2)

/-! ## Response parser (`agent.py`, `parse_response`) -/

/-- The parsed output of one reasoning turn. -/
structure Decision where
  thought : String
  action : String
  params : JVal

/-- `re.search(r"Action:\s*(\S+)", text)` followed by `.strip()` (a no-op on
    a `\S+` token); yields `""` when there is no match.  The regex matches at
    the first occurrence of `Action:` that is followed, after a whitespace
    run, by a non-whitespace character; if the first occurrence is followed
    only by whitespace then no later occurrence can exist (the tail is all
    whitespace), so the search fails. -/
def extractAction (text : String) : String :=
  match afterFirst "Action:".toList text.toList with
  | none => ""
  | some r => String.mk ((r.dropWhile isPySpace).takeWhile (fun c => ¬ isPySpace c))

/-- The lazy body of the `Thought` capture: a minimal non-empty prefix whose
    complement starts with `"\nAction:"`, else everything. -/
def takeUntilNewAction : List Char → List Char
  | [] => []
  | c :: cs =>
    if "\nAction:".toList.isPrefixOf (c :: cs) then []
    else c :: takeUntilNewAction cs

/-- `re.search(r"Thought:\s*(.+?)(?=\nAction:|\Z)", text, re.DOTALL)` followed
    by `.strip()`; yields `""` when there is no match.  When only whitespace
    (or nothing) follows the label, the lazy group either fails or captures a
    single whitespace character which `strip()` reduces to `""`; both are
    modelled as `""`. -/
def extractThought (text : String) : String :=
  match afterFirst "Thought:".toList text.toList with
  | none => ""
  | some r =>
    match r.dropWhile isPySpace with
    | [] => ""
    | c :: cs => pyStripS (String.mk (c :: takeUntilNewAction cs))

/-- `re.search(r"Action Input:\s*(.+)", text, re.DOTALL)` followed by
    `.strip()`: the greedy group captures from the end of the whitespace run
    after the first `Action Input:` to the end of the text, and `strip()`
    removes trailing whitespace.  When only whitespace (or nothing) follows
    the label, backtracking captures trailing whitespace (stripped to `""`)
    or the match fails (`none`). -/
def extractActionInput (text : String) : Option String :=
  match afterFirst "Action Input:".toList text.toList with
  | none => none
  | some [] => none
  | some (c :: cs) => some (pyStripS (String.mk (c :: cs)))

/-- The suffix of `cs` from its first opening brace, or `none`. -/
def spanFromOpen : List Char → Option (List Char)
  | [] => none
  | c :: cs => if c = '\x7b' then some (c :: cs) else spanFromOpen cs

/-- `re.search(r"\{.*\}", raw, re.DOTALL)`: the match runs from the first
    opening brace that precedes the last closing brace, through that last
    closing brace (the inner `.*` is greedy). -/
def braceSpan (s : String) : Option String :=
  match s.toList.reverse.dropWhile (fun c => ¬ c = '\x7d') with
  | [] => none
  | rest =>
    match spanFromOpen rest.reverse.dropLast with
    | none => none
    | some tailOpen => some (String.mk (tailOpen ++ ['\x7d']))

/-- `parse_response` (`agent.py:478-520`): extract Thought, Action and Action
    Input; fall back to a `check_in` decision when no registered action can
    be extracted.  `jloads` is the `json.loads` collaborator (`none` models a
    `JSONDecodeError`). -/
def parse_response (jloads : String → Option JVal) (text : String) : Decision :=
  let thought := extractThought text
  let action := extractAction text
  let params : JVal :=
    match extractActionInput text with
    | none => .jobj []
    | some raw =>
      match jloads raw with
      | some v => v
      | none =>
        match braceSpan raw with
        | none => .jobj []
        | some sub =>
          match jloads sub with
          | some v => v
          | none => .jobj []
  if action = "" ∨ action ∉ toolNames then
    ⟨if thought = "" then text.take 200 else thought,
     "check_in",
     .jobj [("message",
       .jstr ("I couldn\x27t determine my next action. My response was: " ++ text.take 300))]⟩
  else ⟨thought, action, params⟩

/-! ## Agent state (`agent.py`, `AgentState`) -/

structure AgentState where
  jobs_scraped : ℕ
  jobs_parsed : ℕ
  jobs_scored : ℕ
  jobs_selected : ℕ
  jobs_analyzed : ℕ
  jobs_generated : ℕ
  report_generated : Bool
  search_config_path : String
  profile_path : String
  resume_path : Option String
  has_profile : Bool
  errors : List String
deriving DecidableEq

/-! ## Context window manager (`agent.py`, `truncate_messages`) -/

/-- A conversation turn (`{"role": ..., "content": ...}`). -/
structure Msg where
  role : String
  content : String
deriving DecidableEq

def MAX_CONTEXT_CHARS : ℕ := 12000

/-- `sum(len(m.get("content", "")) for m in messages)`; every message the
    loop constructs carries a `content` key. -/
def totalChars (messages : List Msg) : ℕ :=
  (messages.map (fun m => m.content.length)).sum

/-- The synthetic elision notice inserted when history is trimmed. -/
def trimNotice : Msg :=
  ⟨"user",
   "[Earlier conversation was trimmed to save context. The agent has been working through the pipeline steps. Recent history follows.]"⟩

/-- `messages[-n:]`. -/
def lastN (n : ℕ) (messages : List Msg) : List Msg :=
  messages.drop (messages.length - n)

/-- `truncate_messages` (`agent.py:527-549`): keep messages within a
    character budget, preserving the system prompt and the last 6 turns. -/
def truncate_messages (messages : List Msg) (max_chars : ℕ) : List Msg :=
  match messages with
  | [] => messages
  | m0 :: _ =>
    if totalChars messages ≤ max_chars then messages
    else
      let recent := lastN 6 messages
      if m0.role = "system" then m0 :: trimNotice :: recent
      else recent

/-! ## System prompt (`agent.py`, `build_system_prompt`) -/

/-- The `tool_descriptions` join inside `build_system_prompt`. -/
def toolDescriptions : String :=
  String.intercalate "\n" (TOOLS.map (fun kv =>
    "  - " ++ kv.1 ++ ": " ++ kv.2.description ++
      (if kv.2.needs_approval then " [REQUIRES USER APPROVAL]" else "")))

/-- `build_system_prompt` (`agent.py:421-471`), the situational system turn
    regenerated from live state each iteration. -/
def build_system_prompt (state : AgentState) : String :=
  "You are the orchestrator of an Agentic Job Search Pipeline. You reason about what to do, call tools, observe results, and adapt.\n"
  ++ "\n## Available Tools\n" ++ toolDescriptions ++ "\n"
  ++ "\n## Response Format\n"
  ++ "You MUST respond in exactly this format every turn:\n"
  ++ "\nThought: <your reasoning about what to do next, 1-3 sentences>\n"
  ++ "Action: <tool_name>\n"
  ++ "Action Input: <JSON object with parameters, or \x7b\x7d if no parameters>\n"
  ++ "\n## Rules\n"
  ++ "1. ALWAYS follow the Thought/Action/Action Input format. Never skip any field.\n"
  ++ "2. Call exactly ONE tool per turn.\n"
  ++ "3. The typical pipeline order is: scrape_jobs → parse_jobs → score_jobs → select_jobs → analyze_jobs → generate_documents → generate_report → finish\n"
  ++ "4. You CAN deviate from this order when it makes sense (e.g., re-scrape after filter changes, skip analysis, evaluate documents after generation).\n"
  ++ "5. MANDATORY CHECK-INS — you MUST use check_in:\n"
  ++ "   - After scoring: show the user top matches and ask how many to generate for\n"
  ++ "   - Before any tool marked [REQUIRES USER APPROVAL]: confirm the action\n"
  ++ "   - If you detect poor results (e.g., 0 jobs above 50%): propose filter changes\n"
  ++ "   - If an error is unrecoverable: ask the user how to proceed\n"
  ++ "6. SELF-EVALUATION — after generate_documents completes:\n"
  ++ "   - Use read_file to read at least one cover_letter.md\n"
  ++ "   - Use evaluate_document to get a quality score\n"
  ++ "   - If the recommendation is REWRITE, regenerate that job\x27s documents\n"
  ++ "7. ADAPTIVE SEARCH — if scoring shows poor results:\n"
  ++ "   - Use read_search_filters to check current config\n"
  ++ "   - Propose specific filter changes via check_in (explain your reasoning)\n"
  ++ "   - If user approves, use propose_filter_changes then re-scrape and re-score\n"
  ++ "8. Always call finish when you\x27re done, with a summary of what was accomplished.\n"
  ++ "\n## Current State\n"
  ++ "- Jobs scraped: " ++ toString state.jobs_scraped ++ "\n"
  ++ "- Jobs parsed: " ++ toString state.jobs_parsed ++ "\n"
  ++ "- Jobs scored: " ++ toString state.jobs_scored ++ "\n"
  ++ "- Jobs selected: " ++ toString state.jobs_selected ++ "\n"
  ++ "- Jobs analyzed: " ++ toString state.jobs_analyzed ++ "\n"
  ++ "- Documents generated: " ++ toString state.jobs_generated ++ "\n"
  ++ "- Report generated: " ++ pyBool state.report_generated ++ "\n"
  ++ "- Has user profile: " ++ pyBool state.has_profile ++ "\n"
  ++ "- Resume provided: " ++ pyBool (¬ state.resume_path = none) ++ "\n"
  ++ "- Errors so far: " ++ toString state.errors.length ++ "\n"

/-! ## Control-loop iteration (`agent.py`, `run_agent`, loop body 605-666)

One pass of the for-loop.  The reasoning call's outcome is an input
(`llmResult = none` models `chat_completion_multi` raising, which the loop
absorbs into a hard-coded fallback response); the approval prompt's raw
input line is the `approvalInput` argument; handlers are the abstract
registry column `fns`.  Console printing and the inter-call delay have no
effect on state or conversation and are not modelled. -/

/-- `tool_finish` (`agent.py:334-336`). -/
def tool_finish (_state : AgentState) (params : JVal) : String :=
  "FINISH: " ++
    (match params with
     | .jobj kvs =>
       match jlookup kvs "summary" with
       | some v => pyStrOfJVal v
       | none => "Pipeline complete."
     | _ => "Pipeline complete.")

/-- The hard-coded response substituted when the reasoning call raises
    (`agent.py:618-621`). -/
def reasoningFallback : String :=
  "Thought: Reasoning LLM failed.\nAction: check_in\nAction Input: \x7b\"message\": \"My reasoning LLM hit an error. How should I proceed?\"\x7d"

/-- `messages[0]["content"] = build_system_prompt(state)`; the conversation
    is never empty when the loop runs (it starts with two turns). -/
def setSystemContent (messages : List Msg) (content : String) : List Msg :=
  match messages with
  | [] => []
  | m0 :: rest => ⟨m0.role, content⟩ :: rest

inductive IterOutcome where
  | finished (closing : String)
  | continued
deriving DecidableEq

structure IterResult where
  state : AgentState
  messages : List Msg
  outcome : IterOutcome
deriving DecidableEq

/-- The response text fed to the parser. -/
def llmResponse (llmResult : Option String) : String :=
  match llmResult with
  | some r => r
  | none => reasoningFallback

/-- One iteration of the `run_agent` loop body (`agent.py:605-666`). -/
def run_agent_iteration (fns : String → AgentState → JVal → AgentState × String)
    (jloads : String → Option JVal) (state : AgentState) (messages : List Msg)
    (llmResult : Option String) (approvalInput : String) : IterResult :=
  let messages := truncate_messages messages MAX_CONTEXT_CHARS
  let messages := setSystemContent messages (build_system_prompt state)
  let response := llmResponse llmResult
  let d := parse_response jloads response
  if d.action = "finish" then
    ⟨state, messages, .finished (tool_finish state d.params)⟩
  else
    let stepRes : AgentState × String :=
      match lookupTool d.action with
      | none =>
        (state, "Unknown tool: " ++ d.action ++ ". Available tools: " ++
          String.intercalate ", " toolNames)
      | some info =>
        if info.needs_approval then
          if ¬ pyLower (pyStripS approvalInput) = "y" then
            (state, "User declined to run " ++ d.action ++ ".")
          else fns d.action state d.params
        else fns d.action state d.params
    let observation :=
      if stepRes.2.length > 3000 then stepRes.2.take 3000 ++ "\n... [truncated]"
      else stepRes.2
    ⟨stepRes.1,
     messages ++ [⟨"assistant", response⟩, ⟨"user", "Observation: " ++ observation⟩],
     .continued⟩

/-! ## Job selection handler (`agent.py`, `tool_select_jobs`)

The one stage-count handler implemented entirely inside the agent file.
The scored-jobs file read becomes the explicit argument `scoredFile`
(`none` = `.tmp/scored_jobs.json` absent); the write of the selection is
returned as the `written` field.  Scores are `ℚ` (Python floats).  The
handler has no internal try/except, so a malformed parameter bag makes it
raise (`TypeError`/`AttributeError`) out of the handler; the model returns
such a raise as `.error`, and since both raise sites precede the
`state.jobs_selected` assignment, an error leaves the caller's state
unmutated.  Python's `bool` is an `int` subclass: boolean parameters slice
and compare as 1/0. -/

/-- The fields of a scored-job record that the handler reads
    (`j.get("match_score", 0)`, `j.get("title", "?")`, `j.get("company", "?")`). -/
structure Job where
  match_score : Option ℚ
  title : Option String
  company : Option String
deriving DecidableEq

/-- Python `xs[:n]` for an integer bound, including the negative-count
    convention. -/
def pySlice (n : ℤ) (xs : List Job) : List Job :=
  if 0 ≤ n then xs.take n.toNat else xs.take (xs.length - (-n).toNat)

/-- The exception classes a malformed parameter bag raises in the handler. -/
inductive PyError where
  | typeError
  | attributeError
deriving DecidableEq

/-- `params.get(key, default)`: a plain lookup on a dict; on any non-dict
    value `.get` raises `AttributeError`. -/
def pyGet (params : JVal) (key : String) (dflt : JVal) : Except PyError JVal :=
  match params with
  | .jobj kvs => .ok ((jlookup kvs key).getD dflt)
  | _ => .error .attributeError

/-- A threshold value on the right of `score >= threshold` for a numeric
    `score`: ints and floats compare numerically, bools as 1/0 (`bool` is an
    `int` subclass); any other value raises `TypeError`. -/
def jthresholdQ : JVal → Except PyError ℚ
  | .jint n => .ok (n : ℚ)
  | .jfloat x => .ok x
  | .jbool b => .ok (if b then 1 else 0)
  | _ => .error .typeError

/-- `[j for j in scored if j.get("match_score", 0) >= threshold]`: the
    comparison runs once per element, so an unorderable threshold raises
    `TypeError` at the first element, while an empty list filters to `[]`
    without evaluating the comparison at all. -/
def pyFilterGE (scored : List Job) (threshold : JVal) : Except PyError (List Job) :=
  match scored with
  | [] => .ok []
  | _ =>
    match jthresholdQ threshold with
    | .ok t => .ok (scored.filter (fun j => t ≤ j.match_score.getD 0))
    | .error e => .error e

/-- `qualifying[:count]`: ints slice, bools slice as 1/0 (via `__index__`),
    `None` means no bound (the whole list); any other value — a float, a
    string, a container — raises `TypeError`. -/
def pySliceV (count : JVal) (xs : List Job) : Except PyError (List Job) :=
  match count with
  | .jint n => .ok (pySlice n xs)
  | .jbool b => .ok (pySlice (if b then 1 else 0) xs)
  | .jnull => .ok xs
  | _ => .error .typeError

structure SelectResult where
  state : AgentState
  written : Option (List Job)
  observation : String
deriving DecidableEq

/-- `tool_select_jobs` (`agent.py:286-312`): the two `params.get` calls run
    first (so a non-dict bag raises before the file check), then the missing
    scored-file early return, then the comprehension (threshold hazard), the
    slice (count hazard), and only after both the `jobs_selected` assignment. -/
def tool_select_jobs (state : AgentState) (params : JVal)
    (scoredFile : Option (List Job)) : Except PyError SelectResult :=
  match pyGet params "count" (.jint 5) with
  | .error e => .error e
  | .ok count =>
    match pyGet params "threshold" (.jfloat 35) with
    | .error e => .error e
    | .ok threshold =>
      match scoredFile with
      | none => .ok ⟨state, none, "No scored jobs found. Run scoring first."⟩
      | some scored =>
        match pyFilterGE scored threshold with
        | .error e => .error e
        | .ok qualifying =>
          match pySliceV count qualifying with
          | .error e => .error e
          | .ok selected =>
            let state := { state with jobs_selected := selected.length }
            match selected with
            | [] =>
              .ok ⟨state, none,
                "No jobs scoring ≥" ++ pyStrOfJVal threshold ++ "%. Try lowering the threshold."⟩
            | _ =>
              let lines :=
                ("Selected " ++ toString selected.length ++ " job(s) for application generation:") ::
                selected.enum.map (fun ij =>
                  "  " ++ toString (ij.1 + 1) ++ ". [" ++ pyFmt0f (ij.2.match_score.getD 0) ++ "%] "
                    ++ ij.2.title.getD "?" ++ " at " ++ ij.2.company.getD "?")
              .ok ⟨state, some selected, String.intercalate "\n" lines⟩

/-! ## Provider failover engine (`llm_client.py`)

Static provider catalog, the shared cooldown table, selection, and the
retry/failover loop of `_call_with_failover`.  The environment's configured
key set is modelled by the list `avail` (the fixed result of
`_get_available_providers()`, in priority order); each network request's
duration and outcome come from the trace `outcomes : Nat → ℚ × ReqOutcome`. -/

def PRIORITY_ORDER : List String := ["sambanova", "cerebras", "groq", "gemini"]

/-- `_DEFAULT_COOLDOWN`; the engine only ever indexes it with catalog
    providers, so unknown names (a `KeyError` in Python) map to 0. -/
def DEFAULT_COOLDOWN (p : String) : ℚ :=
  if p = "sambanova" then 30
  else if p = "cerebras" then 30
  else if p = "groq" then 60
  else if p = "gemini" then 60
  else 0

def RETRIES_BEFORE_FAILOVER : ℕ := 2

def MAX_WAIT_TOTAL : ℚ := 300

/-- `_provider_cooldowns.get(name, 0)`. -/
def cdGet (cds : List (String × ℚ)) (p : String) : ℚ :=
  match cds.find? (fun kv => kv.1 = p) with
  | some kv => kv.2
  | none => 0

/-- `_provider_cooldowns[name] = value`. -/
def setCd (cds : List (String × ℚ)) (p : String) (v : ℚ) : List (String × ℚ) :=
  match cds with
  | [] => [(p, v)]
  | kv :: rest => if kv.1 = p then (kv.1, v) :: rest else kv :: setCd rest p v

/-- The mutable engine state: the wall clock, the shared cooldown table
    (provider → available-again timestamp) and the most recently failed
    provider. -/
structure FOState where
  clock : ℚ
  cooldowns : List (String × ℚ)
  lastFailed : Option String
deriving DecidableEq

/-- The preference reordering in `_next_available_provider`: providers other
    than the just-failed one first, the just-failed one re-included last. -/
def orderedProviders (avail : List String) (exclude : Option String) : List String :=
  match exclude with
  | some e => if e ∈ avail then avail.filter (fun p => ¬ p = e) ++ [e] else avail
  | none => avail

/-- Python `min(ordered, key=f)`: the first element attaining the minimum. -/
def minByKey (f : String → ℚ) : String → List String → String
  | best, [] => best
  | best, n :: rest => if f n < f best then minByKey f n rest else minByKey f best rest

/-- `_next_available_provider` (`llm_client.py:115-140`): `none` iff no
    provider has a key; otherwise the chosen provider and the remaining
    cooldown wait (0 when immediately available). -/
def nextAvailableProvider (avail : List String) (cds : List (String × ℚ))
    (now : ℚ) (exclude : Option String) : Option (String × ℚ) :=
  match avail with
  | [] => none
  | _ =>
    let ordered := orderedProviders avail exclude
    match ordered.find? (fun n => cdGet cds n ≤ now) with
    | some n => some (n, 0)
    | none =>
      match ordered with
      | [] => none
      | h :: t =>
        let soonest := minByKey (cdGet cds) h t
        some (soonest, max 0 (cdGet cds soonest - now))

/-- One network request's outcome: a returned content (`none` = empty
    response), or one of the three caught exception classes.  A rate limit
    carries the numeric `retry-after` header when one is present
    (`_get_retry_after`'s input; the function adds a 1-second buffer). -/
inductive ReqOutcome where
  | ret (content : Option String)
  | rateLimited (retryAfter : Option ℚ)
  | connErr
  | apiErr
deriving DecidableEq

/-- `retry_after or _DEFAULT_COOLDOWN[provider]` where
    `retry_after = _get_retry_after(e)` is the advertised duration plus a
    1-second buffer; Python's `or` falls back to the default when that sum
    is 0 (falsy). -/
def retryCooldown (p : String) (retryAfter : Option ℚ) : ℚ :=
  match retryAfter with
  | some q => if q + 1 = 0 then DEFAULT_COOLDOWN p else q + 1
  | none => DEFAULT_COOLDOWN p

inductive ProvResult where
  | success (content : String) (st : FOState) (next : ℕ)
  | failover (st : FOState) (next : ℕ)
deriving DecidableEq

/-- The inner `for attempt in range(_RETRIES_BEFORE_FAILOVER)` loop of
    `_call_with_failover` (`llm_client.py:257-292`), for attempts
    `attempt, attempt+1, …` while `remaining` iterations are left.  `next`
    is the index of the next unconsumed trace entry, so `next - idx` counts
    the requests issued to this provider. -/
def attemptLoop (p : String) (outcomes : ℕ → ℚ × ReqOutcome) :
    ℕ → ℕ → FOState → ℕ → ProvResult
  | 0, _, st, idx => .failover st idx
  | remaining + 1, attempt, st, idx =>
    let d := (outcomes idx).1
    let o := (outcomes idx).2
    let st1 : FOState := { st with clock := st.clock + d }
    match o with
    | .ret (some c) => .success (pyStripS c) st1 (idx + 1)
    | .ret none =>
      if attempt < RETRIES_BEFORE_FAILOVER - 1 then
        attemptLoop p outcomes remaining (attempt + 1)
          { st1 with clock := st1.clock + 2 } (idx + 1)
      else .failover st1 (idx + 1)
    | .rateLimited ra =>
      .failover
        { st1 with
          cooldowns := setCd st1.cooldowns p (st1.clock + retryCooldown p ra),
          lastFailed := some p } (idx + 1)
    | .connErr =>
      if attempt < RETRIES_BEFORE_FAILOVER - 1 then
        attemptLoop p outcomes remaining (attempt + 1)
          { st1 with clock := st1.clock + 2 ^ (attempt + 1) } (idx + 1)
      else
        .failover
          { st1 with
            cooldowns := setCd st1.cooldowns p (st1.clock + 30),
            lastFailed := some p } (idx + 1)
    | .apiErr =>
      if attempt < RETRIES_BEFORE_FAILOVER - 1 then
        attemptLoop p outcomes remaining (attempt + 1)
          { st1 with clock := st1.clock + 2 } (idx + 1)
      else
        .failover
          { st1 with
            cooldowns := setCd st1.cooldowns p (st1.clock + 15),
            lastFailed := some p } (idx + 1)

/-- All attempts against one selected provider. -/
def runProvider (p : String) (outcomes : ℕ → ℚ × ReqOutcome)
    (st : FOState) (idx : ℕ) : ProvResult :=
  attemptLoop p outcomes RETRIES_BEFORE_FAILOVER 0 st idx

inductive FOResult where
  | ok (content : String)
  | exhausted (elapsed : ℚ)
  | noKeys
  | fuelOut (st : FOState) (idx : ℕ)
deriving DecidableEq

/-- The outer `while True` of `_call_with_failover` (`llm_client.py:226-292`),
    with explicit recursion fuel (`fuelOut` marks exhausted fuel, never a
    Python behavior).  `exhausted e` models raising `LLMConfigError`
    ("All LLM providers exhausted…") with `e` the elapsed wall-clock time at
    the check; `noKeys` models the mid-loop "No LLM API keys configured"
    raise. -/
def failoverLoop (avail : List String) (outcomes : ℕ → ℚ × ReqOutcome)
    (start : ℚ) : ℕ → FOState → ℕ → FOResult
  | 0, st, idx => .fuelOut st idx
  | fuel + 1, st, idx =>
    if MAX_WAIT_TOTAL < st.clock - start then .exhausted (st.clock - start)
    else
      match nextAvailableProvider avail st.cooldowns st.clock st.lastFailed with
      | none => .noKeys
      | some pw =>
        let st :=
          if 0 < pw.2 then { st with clock := st.clock + pw.2 + 2 } else st
        match runProvider pw.1 outcomes st idx with
        | .success c _ _ => .ok c
        | .failover st2 idx2 => failoverLoop avail outcomes start fuel st2 idx2

/-- `_call_with_failover` entry (`llm_client.py:195-292`): the up-front
    no-keys check, then the loop with the wait budget anchored at the
    current clock. -/
def call_with_failover (avail : List String) (outcomes : ℕ → ℚ × ReqOutcome)
    (fuel : ℕ) (clock0 : ℚ) (cds0 : List (String × ℚ)) : FOResult :=
  match avail with
  | [] => .noKeys
  | _ => failoverLoop avail outcomes clock0 fuel ⟨clock0, cds0, none⟩ 0

/-! ## Concrete fixtures used by the claims below -/

/-- A 7-message conversation whose system turn alone exceeds the budget:
    nothing is elided (the last 6 turns are everything after the system
    turn), yet the notice turn is inserted. -/
def overBudgetConv : List Msg :=
  [⟨"system", String.mk (List.replicate 12001 'a')⟩,
   ⟨"user", "u1"⟩, ⟨"assistant", "a1"⟩, ⟨"user", "u2"⟩,
   ⟨"assistant", "a2"⟩, ⟨"user", "u3"⟩, ⟨"assistant", "a3"⟩]

/-- A conversation for the C3 witness: the middle turn that gets elided is
    larger than the notice turn. -/
def wRest : List Msg :=
  [⟨"user", String.mk (List.replicate 200 'x')⟩, ⟨"assistant", "a"⟩, ⟨"user", "b"⟩,
   ⟨"assistant", "c"⟩, ⟨"user", "d"⟩, ⟨"assistant", "e"⟩, ⟨"user", "f"⟩]

/-- An agent state that has already selected 2 jobs. -/
def preSelectedState : AgentState :=
  { jobs_scraped := 40, jobs_parsed := 30, jobs_scored := 30, jobs_selected := 2,
    jobs_analyzed := 0, jobs_generated := 0, report_generated := false,
    search_config_path := "config/search_filters.yaml",
    profile_path := "config/user_profile.yaml",
    resume_path := none, has_profile := true, errors := [] }

/-- The request index a provider's retry loop stops at. -/
def provNext : ProvResult → ℕ
  | .success _ _ n => n
  | .failover _ n => n

/-- An all-zero starting agent state. -/
def agentState0 : AgentState :=
  { jobs_scraped := 0, jobs_parsed := 0, jobs_scored := 0, jobs_selected := 0,
    jobs_analyzed := 0, jobs_generated := 0, report_generated := false,
    search_config_path := "config/search_filters.yaml",
    profile_path := "config/user_profile.yaml",
    resume_path := none, has_profile := false, errors := [] }

/-- A concrete starting conversation for the C8 witness. -/
def witMsgs : List Msg := [⟨"system", "p"⟩, ⟨"user", "Begin the pipeline."⟩]

/-- A concrete reasoning response deciding an approval-gated operation. -/
def witResp : String := "Thought: time to scrape\nAction: scrape_jobs\nAction Input: \x7b\x7d"

/-! ## Helper lemmas -/

/-- The parser's fallback branch, fully characterized. -/
lemma parse_response_of_fallback (jloads : String → Option JVal) (text : String)
    (h : extractAction text = "" ∨ extractAction text ∉ toolNames) :
    parse_response jloads text =
      ⟨if extractThought text = "" then text.take 200 else extractThought text,
       "check_in",
       .jobj [("message",
         .jstr ("I couldn\x27t determine my next action. My response was: " ++ text.take 300))]⟩ := by
  simp only [parse_response]
  rw [if_pos h]

/-- In the non-fallback branch the decided action is the extracted token. -/
lemma parse_response_action_of_ok (jloads : String → Option JVal) (text : String)
    (h : ¬ (extractAction text = "" ∨ extractAction text ∉ toolNames)) :
    (parse_response jloads text).action = extractAction text := by
  simp only [parse_response]
  rw [if_neg h]

/-- A key present in an association list's key column is found by `find?`. -/
lemma find?_fst_of_mem {β : Type} {l : List (String × β)} {a : String}
    (h : a ∈ l.map Prod.fst) :
    ∃ kv, l.find? (fun kv => kv.1 = a) = some kv := by
  induction l with
  | nil => simp at h
  | cons kv t ih =>
    by_cases hk : kv.1 = a
    · exact ⟨kv, by simp [List.find?, hk]⟩
    · have h' : a ∈ t.map Prod.fst := by
        rcases (by simpa using h : a = kv.1 ∨ a ∈ t.map Prod.fst) with h1 | h2
        · exact absurd h1.symm hk
        · exact h2
      obtain ⟨kv', hkv'⟩ := ih h'
      exact ⟨kv', by simp [List.find?, hk, hkv']⟩

/-- Registered names always look up a descriptor. -/
lemma lookupTool_of_mem {a : String} (h : a ∈ toolNames) :
    ¬ lookupTool a = none := by
  obtain ⟨kv, hkv⟩ := find?_fst_of_mem h
  simp [lookupTool, hkv]

/-! ## Claims on the response parser -/

/-- C1: for every raw reasoning output from which no valid, registered
    operation name can be extracted, `parse_response` returns (does not
    raise) a decision whose operation is `check_in` and whose parameter bag
    carries a prefix of the original raw text as a diagnostic message, for
    every behavior of the `json.loads` collaborator. -/
theorem parse_fallback_is_check_in (jloads : String → Option JVal) (text : String)
    (h : extractAction text = "" ∨ extractAction text ∉ toolNames) :
    (parse_response jloads text).action = "check_in" ∧
    (parse_response jloads text).params =
      .jobj [("message",
        .jstr ("I couldn\x27t determine my next action. My response was: " ++ text.take 300))] := by
  rw [parse_response_of_fallback jloads text h]
  exact ⟨rfl, rfl⟩

/-- Witness for C1 at a raw text with no extractable action. -/
theorem parse_fallback_is_check_in_witness :
    (parse_response (fun _ => none) "I will now scrape the jobs").action = "check_in" ∧
    (parse_response (fun _ => none) "I will now scrape the jobs").params =
      .jobj [("message",
        .jstr ("I couldn\x27t determine my next action. My response was: " ++
          (("I will now scrape the jobs" : String)).take 300))] :=
  parse_fallback_is_check_in (fun _ => none) "I will now scrape the jobs" (by decide)

/-- C9: for every input text and every `json.loads` behavior, the operation
    name decided by `parse_response` is a key of the `TOOLS` registry, and
    the loop's `TOOLS.get` lookup on it succeeds — so the "Unknown tool"
    branch in `run_agent` can never be reached from a parsed decision. -/
theorem parse_action_always_registered (jloads : String → Option JVal) (text : String) :
    (parse_response jloads text).action ∈ toolNames ∧
    ¬ lookupTool (parse_response jloads text).action = none := by
  by_cases h : extractAction text = "" ∨ extractAction text ∉ toolNames
  · rw [parse_response_of_fallback jloads text h]
    refine ⟨?_, ?_⟩
    · show "check_in" ∈ toolNames
      decide
    · show ¬ lookupTool "check_in" = none
      decide
  · rw [parse_response_action_of_ok jloads text h]
    push_neg at h
    exact ⟨h.2, lookupTool_of_mem h.2⟩

/-! ## Claims on the context window manager -/

/-- C4: a conversation whose total character length is at most the budget is
    returned unchanged. -/
theorem truncate_messages_id_under_budget (messages : List Msg) (max_chars : ℕ)
    (h : totalChars messages ≤ max_chars) :
    truncate_messages messages max_chars = messages := by
  cases messages with
  | nil => rfl
  | cons m0 rest => simp [truncate_messages, h]

/-- Witness for C4 at a small concrete conversation and the configured
    budget. -/
theorem truncate_messages_id_under_budget_witness :
    truncate_messages [⟨"system", "prompt"⟩, ⟨"user", "Begin the pipeline."⟩]
        MAX_CONTEXT_CHARS
      = [⟨"system", "prompt"⟩, ⟨"user", "Begin the pipeline."⟩] :=
  truncate_messages_id_under_budget _ _ (by decide)

set_option maxRecDepth 8000 in
/-- C3 counterexample: an over-budget conversation on which
    `truncate_messages` returns a strictly LARGER conversation — the elided
    middle is empty while the synthetic notice turn is added, so the claimed
    strict size decrease fails. -/
theorem truncate_messages_can_grow :
    MAX_CONTEXT_CHARS < totalChars overBudgetConv ∧
    totalChars overBudgetConv
      < totalChars (truncate_messages overBudgetConv MAX_CONTEXT_CHARS) := by
  have hbig : (String.mk (List.replicate 12001 'a')).length = 12001 := by
    show (List.replicate 12001 'a').length = 12001
    rw [List.length_replicate]
  have h1 : totalChars overBudgetConv = 12013 := by
    simp only [overBudgetConv, totalChars, List.map_cons, List.map_nil, List.sum_cons,
      List.sum_nil, hbig]
    decide
  have hneg : ¬ totalChars overBudgetConv ≤ MAX_CONTEXT_CHARS := by
    rw [h1]; decide
  have htr : truncate_messages overBudgetConv MAX_CONTEXT_CHARS
      = ⟨"system", String.mk (List.replicate 12001 'a')⟩ :: trimNotice ::
        [⟨"user", "u1"⟩, ⟨"assistant", "a1"⟩, ⟨"user", "u2"⟩,
         ⟨"assistant", "a2"⟩, ⟨"user", "u3"⟩, ⟨"assistant", "a3"⟩] := by
    simp only [overBudgetConv] at hneg ⊢
    simp only [truncate_messages]
    rw [if_neg hneg]
    rfl
  have h2 : totalChars (truncate_messages overBudgetConv MAX_CONTEXT_CHARS)
      = 12001 + trimNotice.content.length + 12 := by
    rw [htr]
    simp only [totalChars, List.map_cons, List.map_nil, List.sum_cons, List.sum_nil, hbig]
    decide
  constructor
  · rw [h1]; decide
  · rw [h1, h2]
    have : 0 < trimNotice.content.length := by decide
    omega

/-- C3 (amended): for an over-budget conversation whose first turn is the
    system turn and whose elided middle (everything between the first turn
    and the last 6 turns) is larger than the synthetic notice turn, the
    result is strictly smaller, its first element is the input's first
    element, and its last 6 elements are the input's last 6 elements. -/
theorem truncate_messages_over_budget_shape (m0 : Msg) (rest : List Msg) (max_chars : ℕ)
    (hsys : m0.role = "system")
    (hover : max_chars < totalChars (m0 :: rest))
    (hmid : trimNotice.content.length < totalChars (rest.take (rest.length - 6))) :
    totalChars (truncate_messages (m0 :: rest) max_chars) < totalChars (m0 :: rest) ∧
    (truncate_messages (m0 :: rest) max_chars).head? = some m0 ∧
    lastN 6 (truncate_messages (m0 :: rest) max_chars) = lastN 6 (m0 :: rest) := by
  have hT : rest.take (rest.length - 6) ≠ [] := by
    intro he
    rw [he] at hmid
    simp [totalChars] at hmid
  have hlen : 7 ≤ rest.length := by
    rcases rest with _ | ⟨r, rs⟩
    · simp at hT
    · by_contra hc
      push_neg at hc
      have : (r :: rs).length - 6 = 0 := by omega
      rw [this] at hT
      simp at hT
  have hneg : ¬ totalChars (m0 :: rest) ≤ max_chars := by omega
  have htr : truncate_messages (m0 :: rest) max_chars
      = m0 :: trimNotice :: lastN 6 (m0 :: rest) := by
    simp [truncate_messages, hneg, hsys]
  have hdrop : lastN 6 (m0 :: rest) = rest.drop (rest.length - 6) := by
    have h1 : (m0 :: rest).length - 6 = (rest.length - 6) + 1 := by
      simp only [List.length_cons]
      omega
    simp only [lastN, h1, List.drop_succ_cons]
  have hsplit : rest = rest.take (rest.length - 6) ++ rest.drop (rest.length - 6) :=
    (List.take_append_drop _ rest).symm
  have hsum : totalChars rest
      = totalChars (rest.take (rest.length - 6)) + totalChars (rest.drop (rest.length - 6)) := by
    conv_lhs => rw [hsplit]
    simp [totalChars]
  have hdlen : (rest.drop (rest.length - 6)).length = 6 := by
    rw [List.length_drop]
    omega
  refine ⟨?_, ?_, ?_⟩
  · rw [htr, hdrop]
    simp only [totalChars, List.map_cons, List.sum_cons] at hmid hsum ⊢
    omega
  · rw [htr]
    rfl
  · rw [htr, hdrop]
    show List.drop ((m0 :: trimNotice :: rest.drop (rest.length - 6)).length - 6)
        (m0 :: trimNotice :: rest.drop (rest.length - 6)) = rest.drop (rest.length - 6)
    have hlen2 : (m0 :: trimNotice :: rest.drop (rest.length - 6)).length - 6 = 2 := by
      simp only [List.length_cons, hdlen]
    rw [hlen2]
    rfl

set_option maxRecDepth 8000 in
/-- Witness for the amended C3 at a concrete over-budget conversation. -/
theorem truncate_messages_over_budget_shape_witness :
    totalChars (truncate_messages (⟨"system", "s"⟩ :: wRest) 10)
        < totalChars (⟨"system", "s"⟩ :: wRest) ∧
    (truncate_messages (⟨"system", "s"⟩ :: wRest) 10).head? = some ⟨"system", "s"⟩ ∧
    lastN 6 (truncate_messages (⟨"system", "s"⟩ :: wRest) 10)
      = lastN 6 (⟨"system", "s"⟩ :: wRest) :=
  truncate_messages_over_budget_shape ⟨"system", "s"⟩ wRest 10 rfl (by decide) (by decide)

/-! ## Claims on pipeline-state counts -/

/-- C5 counterexample: re-invoking `select_jobs` (empty parameter bag) when
    the scored file holds no qualifying jobs completes normally and SETS
    `jobs_selected` to 0, strictly below its current value 2 — the stage
    counts are not monotonically non-decreasing. -/
theorem select_jobs_lowers_count :
    ∃ res, tool_select_jobs preSelectedState (.jobj []) (some []) = .ok res ∧
      res.state.jobs_selected < preSelectedState.jobs_selected := by
  exact ⟨⟨{ preSelectedState with jobs_selected := 0 }, none,
    "No jobs scoring ≥" ++ pyStrOfJVal (.jfloat 35) ++ "%. Try lowering the threshold."⟩,
    rfl, by decide⟩

/-- C5 (amended): a completed (non-raising) invocation of `select_jobs` on a
    present scored file sets `jobs_selected` to the size of its CURRENT
    selection (0 when nothing is selected, the written selection's length
    otherwise — which may be below the previous value) and leaves every
    other `AgentState` field unchanged; with the file absent the whole state
    is returned unchanged; a non-dict parameter bag raises `AttributeError`
    before touching the state (bad `count`/`threshold` values likewise raise
    `TypeError` before the count assignment, so an error never mutates the
    state). -/
theorem select_jobs_state_effect :
    (∀ (st : AgentState) (params : JVal) (scoredFile : Option (List Job)),
        (∀ kvs, ¬ params = JVal.jobj kvs) →
        tool_select_jobs st params scoredFile = .error .attributeError) ∧
    (∀ (st : AgentState) (kvs : List (String × JVal)),
        tool_select_jobs st (.jobj kvs) none
          = .ok ⟨st, none, "No scored jobs found. Run scoring first."⟩) ∧
    (∀ (st : AgentState) (params : JVal) (scored : List Job) (res : SelectResult),
        tool_select_jobs st params (some scored) = .ok res →
        (res.written = none → res.state = { st with jobs_selected := 0 }) ∧
        (∀ sel, res.written = some sel →
            res.state = { st with jobs_selected := sel.length })) := by
  refine ⟨?_, ?_, ?_⟩
  · intro st params scoredFile hnd
    rcases params with _ | b | n | q | s | xs | kvs
    · rfl
    · rfl
    · rfl
    · rfl
    · rfl
    · rfl
    · exact absurd rfl (hnd kvs)
  · intro st kvs
    rfl
  · intro st params scored res h
    rcases params with _ | b | n | q | s | xs | kvs
    · simp [tool_select_jobs, pyGet] at h
    · simp [tool_select_jobs, pyGet] at h
    · simp [tool_select_jobs, pyGet] at h
    · simp [tool_select_jobs, pyGet] at h
    · simp [tool_select_jobs, pyGet] at h
    · simp [tool_select_jobs, pyGet] at h
    · simp only [tool_select_jobs, pyGet] at h
      rcases hq : pyFilterGE scored ((jlookup kvs "threshold").getD (.jfloat 35))
        with e | qualifying
      · simp only [hq] at h
        exact Except.noConfusion h
      · simp only [hq] at h
        rcases hs : pySliceV ((jlookup kvs "count").getD (.jint 5)) qualifying
          with e | selected
        · simp only [hs] at h
          exact Except.noConfusion h
        · simp only [hs] at h
          rcases selected with _ | ⟨j, js⟩
          · simp only [Except.ok.injEq] at h
            subst h
            exact ⟨fun _ => rfl, fun sel hw => by simp at hw⟩
          · simp only [Except.ok.injEq] at h
            subst h
            refine ⟨fun hw => by simp at hw, fun sel hw => ?_⟩
            have hsel : j :: js = sel := by simpa using hw
            rw [← hsel]

/-- Witness for the amended C5: a concrete completed run over a scored file
    whose one job scores below the default threshold — nothing is selected
    and the count is set to 0. -/
theorem select_jobs_state_effect_witness :
    (⟨{ preSelectedState with jobs_selected := 0 }, none,
        "No jobs scoring ≥" ++ pyStrOfJVal (.jfloat 35) ++ "%. Try lowering the threshold."⟩
      : SelectResult).state = { preSelectedState with jobs_selected := 0 } :=
  (select_jobs_state_effect.2.2 preSelectedState (.jobj []) [⟨some 10, none, none⟩]
      ⟨{ preSelectedState with jobs_selected := 0 }, none,
        "No jobs scoring ≥" ++ pyStrOfJVal (.jfloat 35) ++ "%. Try lowering the threshold."⟩
      rfl).1 rfl

/-! ## Claims on the failover engine -/

/-- The only `exhausted` exit of the loop is the budget check, which fires
    strictly above the budget. -/
lemma failoverLoop_exhausted_gt (avail : List String) (outcomes : ℕ → ℚ × ReqOutcome)
    (start : ℚ) :
    ∀ (fuel : ℕ) (st : FOState) (idx : ℕ) (e : ℚ),
      failoverLoop avail outcomes start fuel st idx = .exhausted e →
      MAX_WAIT_TOTAL < e := by
  intro fuel
  induction fuel with
  | zero =>
    intro st idx e h
    simp [failoverLoop] at h
  | succ n ih =>
    intro st idx e h
    simp only [failoverLoop] at h
    split at h
    next hcond =>
      rw [show FOResult.exhausted (st.clock - start) = .exhausted e ↔ st.clock - start = e
            from by constructor <;> (intro hx; first | exact FOResult.exhausted.inj hx | rw [hx])] at h
      rw [← h]
      exact hcond
    next =>
      split at h
      next => simp at h
      next pw =>
        split at h
        next => simp at h
        next st2 idx2 hrun => exact ih st2 idx2 e h

/-- C2: the failover engine raises the all-providers-exhausted error only
    when the elapsed wall-clock time since the call began strictly exceeds
    the 300-second total-wait budget (never before); and with a single
    configured provider failing every attempt with connection errors, the
    call does raise it, after the budget is exceeded (here at 436 s
    elapsed). -/
theorem exhausted_only_after_budget :
    (∀ avail outcomes fuel clock0 cds0 e,
        call_with_failover avail outcomes fuel clock0 cds0 = .exhausted e →
        MAX_WAIT_TOTAL < e) ∧
    call_with_failover ["sambanova"] (fun _ => (100, .connErr)) 5 0 [] = .exhausted 436 ∧
    MAX_WAIT_TOTAL < (436 : ℚ) := by
  refine ⟨?_, ?_, by norm_num [MAX_WAIT_TOTAL]⟩
  · intro avail outcomes fuel clock0 cds0 e h
    match avail with
    | [] => simp [call_with_failover] at h
    | a :: t => exact failoverLoop_exhausted_gt (a :: t) outcomes clock0 fuel _ 0 e h
  · norm_num [call_with_failover, failoverLoop, nextAvailableProvider, orderedProviders,
      minByKey, cdGet, setCd, runProvider, attemptLoop, retryCooldown, DEFAULT_COOLDOWN,
      RETRIES_BEFORE_FAILOVER, MAX_WAIT_TOTAL, List.find?]

/-- Witness for C2: the general budget bound applied to the concrete
    single-provider connection-error scenario. -/
theorem exhausted_only_after_budget_witness : MAX_WAIT_TOTAL < (436 : ℚ) :=
  exhausted_only_after_budget.1 ["sambanova"] (fun _ => (100, .connErr)) 5 0 [] 436
    exhausted_only_after_budget.2.1

/-- The retry loop issues at most `remaining` further requests. -/
lemma attemptLoop_next_le (p : String) (outcomes : ℕ → ℚ × ReqOutcome) :
    ∀ (remaining attempt : ℕ) (st : FOState) (idx : ℕ),
      provNext (attemptLoop p outcomes remaining attempt st idx) ≤ idx + remaining := by
  intro remaining
  induction remaining with
  | zero =>
    intro attempt st idx
    simp [attemptLoop, provNext]
  | succ n ih =>
    intro attempt st idx
    rcases ho : (outcomes idx).2 with (_ | c) | ra | _ | _
    · simp only [attemptLoop, ho]
      split
      · exact le_trans (ih _ _ _) (by omega)
      · simp only [provNext]; omega
    · simp only [attemptLoop, ho, provNext]; omega
    · simp only [attemptLoop, ho, provNext]; omega
    · simp only [attemptLoop, ho]
      split
      · exact le_trans (ih _ _ _) (by omega)
      · simp only [provNext]; omega
    · simp only [attemptLoop, ho]
      split
      · exact le_trans (ih _ _ _) (by omega)
      · simp only [provNext]; omega

/-- C7: each selected provider is retried at most the fixed retry count
    (`_RETRIES_BEFORE_FAILOVER = 2`); a rate-limit response immediately ends
    its retry loop after a single request; a first-attempt connection error
    or empty response leads to a second attempt against the SAME provider
    with a backoff sleep (2^1 seconds after a connection error, the fixed
    2-second pause after an empty response) between the attempts. -/
theorem provider_retry_discipline :
    (∀ p outcomes st idx,
        provNext (runProvider p outcomes st idx) ≤ idx + RETRIES_BEFORE_FAILOVER) ∧
    (∀ p outcomes st idx d ra, outcomes idx = (d, .rateLimited ra) →
        runProvider p outcomes st idx =
          .failover
            ⟨st.clock + d, setCd st.cooldowns p (st.clock + d + retryCooldown p ra),
             some p⟩ (idx + 1)) ∧
    (∀ p outcomes st idx d, outcomes idx = (d, .connErr) →
        runProvider p outcomes st idx =
          attemptLoop p outcomes (RETRIES_BEFORE_FAILOVER - 1) 1
            ⟨st.clock + d + 2 ^ (0 + 1), st.cooldowns, st.lastFailed⟩ (idx + 1)) ∧
    (∀ p outcomes st idx d, outcomes idx = (d, .ret none) →
        runProvider p outcomes st idx =
          attemptLoop p outcomes (RETRIES_BEFORE_FAILOVER - 1) 1
            ⟨st.clock + d + 2, st.cooldowns, st.lastFailed⟩ (idx + 1)) := by
  refine ⟨?_, ?_, ?_, ?_⟩
  · intro p outcomes st idx
    exact attemptLoop_next_le p outcomes RETRIES_BEFORE_FAILOVER 0 st idx
  · intro p outcomes st idx d ra h
    simp [runProvider, RETRIES_BEFORE_FAILOVER, attemptLoop, h]
  · intro p outcomes st idx d h
    simp [runProvider, RETRIES_BEFORE_FAILOVER, attemptLoop, h]
  · intro p outcomes st idx d h
    simp [runProvider, RETRIES_BEFORE_FAILOVER, attemptLoop, h]

/-- Witness for C7 at a concrete rate-limited trace. -/
theorem provider_retry_discipline_witness :
    runProvider "groq" (fun _ => (0, .rateLimited none)) ⟨7, [], none⟩ 0 =
      .failover ⟨7 + 0, setCd [] "groq" (7 + 0 + retryCooldown "groq" none), some "groq"⟩ 1 :=
  provider_retry_discipline.2.1 "groq" (fun _ => (0, .rateLimited none)) ⟨7, [], none⟩ 0 0
    none rfl

/-- Updating a provider's cooldown entry makes it the looked-up value. -/
lemma cdGet_setCd (cds : List (String × ℚ)) (p : String) (v : ℚ) :
    cdGet (setCd cds p v) p = v := by
  induction cds with
  | nil => simp [setCd, cdGet, List.find?]
  | cons kv rest ih =>
    by_cases h : kv.1 = p
    · simp [setCd, cdGet, List.find?, h]
    · simpa [setCd, cdGet, List.find?, h] using ih

/-- C6 counterexample: a provider is rate limited with an advertised
    retry-after of 10 seconds at time 0; the engine sets its cooldown expiry
    to 11 — advertised plus a 1-second buffer — not to the advertised 10 as
    the claim's "exactly the duration advertised" requires. -/
theorem rate_limit_cooldown_not_exact :
    runProvider "sambanova" (fun _ => (0, .rateLimited (some 10))) ⟨0, [], none⟩ 0 =
      .failover ⟨0, [("sambanova", 11)], some "sambanova"⟩ 1 ∧
    ¬ ((11 : ℚ) = 0 + 10) := by
  constructor
  · norm_num [runProvider, RETRIES_BEFORE_FAILOVER, attemptLoop, retryCooldown, setCd,
      DEFAULT_COOLDOWN]
  · norm_num

/-- C6 (amended): on a rate-limit failure the engine sets the provider's
    cooldown expiry to the failure time plus the advertised duration plus a
    1-second buffer when a retry-after duration is advertised (falling back
    to the provider's default cooldown if that sum is zero), or plus the
    default cooldown otherwise; it issues no further request to that
    provider in the current retry loop, and marks it most recently failed. -/
theorem rate_limit_cooldown_semantics (p : String) (outcomes : ℕ → ℚ × ReqOutcome)
    (st : FOState) (idx : ℕ) (d : ℚ) (ra : Option ℚ)
    (h : outcomes idx = (d, .rateLimited ra)) :
    ∃ st', runProvider p outcomes st idx = .failover st' (idx + 1) ∧
      cdGet st'.cooldowns p = st.clock + d + retryCooldown p ra ∧
      st'.lastFailed = some p := by
  refine ⟨⟨st.clock + d, setCd st.cooldowns p (st.clock + d + retryCooldown p ra), some p⟩,
    ?_, ?_, rfl⟩
  · simp [runProvider, RETRIES_BEFORE_FAILOVER, attemptLoop, h]
  · exact cdGet_setCd st.cooldowns p (st.clock + d + retryCooldown p ra)

/-- Witness for the amended C6 at a concrete advertised retry-after. -/
theorem rate_limit_cooldown_semantics_witness :
    ∃ st', runProvider "cerebras" (fun _ => (1, .rateLimited (some 10))) ⟨0, [], none⟩ 0 =
        .failover st' (0 + 1) ∧
      cdGet st'.cooldowns "cerebras" =
        (⟨0, [], none⟩ : FOState).clock + 1 + retryCooldown "cerebras" (some 10) ∧
      st'.lastFailed = some "cerebras" :=
  rate_limit_cooldown_semantics "cerebras" (fun _ => (1, .rateLimited (some 10)))
    ⟨0, [], none⟩ 0 1 (some 10) rfl

/-- Python's `min` returns an element of its argument. -/
lemma minByKey_mem (f : String → ℚ) : ∀ (b : String) (l : List String),
    minByKey f b l ∈ b :: l := by
  intro b l
  induction l generalizing b with
  | nil => simp [minByKey]
  | cons n rest ih =>
    simp only [minByKey]
    split
    · have h := ih n
      simp only [List.mem_cons] at h ⊢
      tauto
    · have h := ih b
      simp only [List.mem_cons] at h ⊢
      tauto

/-- Weakening a `find?` predicate moves the hit no later in the list. -/
lemma find?_mono_index (f g : String → Bool) (hfg : ∀ a, f a = true → g a = true) :
    ∀ (l : List String) (x : String), l.find? f = some x →
      ∃ y, l.find? g = some y ∧ l.indexOf y ≤ l.indexOf x := by
  intro l
  induction l with
  | nil => intro x h; simp at h
  | cons a t ih =>
    intro x h
    by_cases hga : g a = true
    · refine ⟨a, by simp [List.find?, hga], ?_⟩
      simp [List.indexOf_cons_self]
    · have hgaf : g a = false := by
        cases hb : g a
        · rfl
        · exact absurd hb hga
      have hfa : f a = false := by
        cases hb : f a
        · rfl
        · exact absurd (hfg a hb) hga
      have h' : t.find? f = some x := by
        simpa [List.find?, hfa] using h
      obtain ⟨y, hy, hle⟩ := ih x h'
      have hgy : g y = true := List.find?_some hy
      have hfx : f x = true := List.find?_some h'
      have hya : y ≠ a := fun he => by rw [he, hgaf] at hgy; cases hgy
      have hxa : x ≠ a := fun he => by rw [he, hfa] at hfx; cases hfx
      refine ⟨y, ?_, ?_⟩
      · simpa [List.find?, hgaf] using hy
      · rw [List.indexOf_cons_ne _ (Ne.symm hya), List.indexOf_cons_ne _ (Ne.symm hxa)]
        omega

/-- With at least one configured key, selection always chooses a provider. -/
lemma nextAvailableProvider_isSome (avail : List String) (cds : List (String × ℚ))
    (now : ℚ) (excl : Option String) (h : ¬ avail = []) :
    ∃ pw, nextAvailableProvider avail cds now excl = some pw := by
  match avail with
  | [] => exact absurd rfl h
  | a :: t =>
    have hord : ¬ orderedProviders (a :: t) excl = [] := by
      rcases excl with _ | e
      · simp [orderedProviders]
      · by_cases he : e ∈ a :: t <;> simp [orderedProviders, he]
    rcases ho : orderedProviders (a :: t) excl with _ | ⟨h1, t1⟩
    · exact absurd ho hord
    · simp only [nextAvailableProvider, ho]
      rcases hf : (h1 :: t1).find? (fun n => cdGet cds n ≤ now) with _ | pr
      · exact ⟨_, rfl⟩
      · exact ⟨(pr, 0), rfl⟩

/-- A trace of empty responses drives every retry loop to a plain failover. -/
lemma attemptLoop_all_none (p : String) (outcomes : ℕ → ℚ × ReqOutcome)
    (hall : ∀ n : ℕ, (outcomes n).2 = .ret none) :
    ∀ (remaining attempt : ℕ) (st : FOState) (idx : ℕ), ∃ st2 idx2,
      attemptLoop p outcomes remaining attempt st idx = .failover st2 idx2 := by
  intro remaining
  induction remaining with
  | zero => intro attempt st idx; exact ⟨st, idx, rfl⟩
  | succ n ih =>
    intro attempt st idx
    simp only [attemptLoop, hall idx]
    split
    · exact ih _ _ _
    · exact ⟨_, _, rfl⟩

/-- C10: a persistently empty (None) response sets no cooldown and leaves
    the last-failed marker unchanged (i); with a single configured provider
    the selection step re-selects that same provider every cycle (ii), and
    in general a later selection with unchanged cooldowns and exclusion
    never moves to a lower-priority position of the preference order (iii);
    under an all-empty trace the call can never return success or the
    no-keys error — only the exhaustion raise (or the model's fuel marker)
    remains (iv). -/
theorem empty_response_keeps_provider :
    (∀ p outcomes st idx d0 d1, outcomes idx = (d0, .ret none) →
        outcomes (idx + 1) = (d1, .ret none) →
        runProvider p outcomes st idx =
          .failover ⟨st.clock + d0 + 2 + d1, st.cooldowns, st.lastFailed⟩ (idx + 1 + 1)) ∧
    (∀ p cds now excl, ∃ w, nextAvailableProvider [p] cds now excl = some (p, w)) ∧
    (∀ avail cds excl now now2 x, now ≤ now2 →
        nextAvailableProvider avail cds now excl = some (x, 0) →
        ∃ y, nextAvailableProvider avail cds now2 excl = some (y, 0) ∧
          (orderedProviders avail excl).indexOf y ≤ (orderedProviders avail excl).indexOf x) ∧
    (∀ avail outcomes start fuel st idx, ¬ avail = [] →
        (∀ n : ℕ, (outcomes n).2 = .ret none) →
        (∃ e, failoverLoop avail outcomes start fuel st idx = .exhausted e) ∨
        (∃ st2 idx2, failoverLoop avail outcomes start fuel st idx = .fuelOut st2 idx2)) := by
  refine ⟨?_, ?_, ?_, ?_⟩
  · intro p outcomes st idx d0 d1 h0 h1
    simp [runProvider, RETRIES_BEFORE_FAILOVER, attemptLoop, h0, h1]
  · intro p cds now excl
    have hord : orderedProviders [p] excl = [p] := by
      rcases excl with _ | e
      · rfl
      · by_cases he : e ∈ [p]
        · have hep : e = p := by simpa using he
          subst hep
          simp [orderedProviders]
        · simp only [orderedProviders]
          rw [if_neg he]
    simp only [nextAvailableProvider, hord]
    by_cases hav : cdGet cds p ≤ now
    · exact ⟨0, by simp [List.find?, hav]⟩
    · exact ⟨max 0 (cdGet cds p - now), by simp [List.find?, hav, minByKey]⟩
  · intro avail cds excl now now2 x hle h
    rcases avail with _ | ⟨a, t⟩
    · simp [nextAvailableProvider] at h
    · simp only [nextAvailableProvider] at h ⊢
      rcases hf : (orderedProviders (a :: t) excl).find? (fun n => cdGet cds n ≤ now)
        with _ | pr
      · rw [hf] at h
        rcases ho : orderedProviders (a :: t) excl with _ | ⟨h1, t1⟩
        · rw [ho] at h
          simp at h
        · rw [ho] at h
          simp only [Option.some.injEq, Prod.mk.injEq] at h
          obtain ⟨hx, hw⟩ := h
          have hmem : minByKey (cdGet cds) h1 t1 ∈ h1 :: t1 := minByKey_mem _ h1 t1
          have hnone : ∀ q ∈ h1 :: t1, ¬ cdGet cds q ≤ now := by
            intro q hq
            have := List.find?_eq_none.mp (ho ▸ hf) q hq
            simpa using this
          have hpos : 0 < cdGet cds (minByKey (cdGet cds) h1 t1) - now := by
            have := hnone _ hmem
            linarith [lt_of_not_le this]
          rw [max_eq_right (le_of_lt hpos)] at hw
          exact absurd hw (ne_of_gt hpos)
      · rw [hf] at h
        simp only [Option.some.injEq, Prod.mk.injEq] at h
        obtain ⟨hx, -⟩ := h
        subst hx
        have hmono : ∀ a', (fun n => decide (cdGet cds n ≤ now)) a' = true →
            (fun n => decide (cdGet cds n ≤ now2)) a' = true := by
          intro a' ha'
          simp only [decide_eq_true_eq] at ha' ⊢
          exact le_trans ha' hle
        obtain ⟨y, hy, hidx⟩ := find?_mono_index _ _ hmono (orderedProviders (a :: t) excl)
          pr hf
        exact ⟨y, by rw [hy], hidx⟩
  · intro avail outcomes start fuel
    induction fuel with
    | zero =>
      intro st idx h1 h2
      exact Or.inr ⟨st, idx, rfl⟩
    | succ n ih =>
      intro st idx hne hall
      simp only [failoverLoop]
      split
      · exact Or.inl ⟨_, rfl⟩
      · obtain ⟨pw, hpw⟩ :=
          nextAvailableProvider_isSome avail st.cooldowns st.clock st.lastFailed hne
        obtain ⟨st2, idx2, hrun⟩ := attemptLoop_all_none pw.1 outcomes hall
          RETRIES_BEFORE_FAILOVER 0
          (if 0 < pw.2 then { st with clock := st.clock + pw.2 + 2 } else st) idx
        have hrun' : runProvider pw.1 outcomes
            (if 0 < pw.2 then { st with clock := st.clock + pw.2 + 2 } else st) idx
            = .failover st2 idx2 := hrun
        simp only [hpw, hrun']
        exact ih st2 idx2 hne hall

/-- Witness for C10 at a concrete two-empty-responses trace. -/
theorem empty_response_keeps_provider_witness :
    runProvider "gemini" (fun _ => (3, .ret none)) ⟨0, [("groq", 50)], some "groq"⟩ 0 =
      .failover ⟨0 + 3 + 2 + 3, [("groq", 50)], some "groq"⟩ (0 + 1 + 1) :=
  empty_response_keeps_provider.1 "gemini" (fun _ => (3, .ret none))
    ⟨0, [("groq", 50)], some "groq"⟩ 0 3 3 rfl rfl

/-! ## Claims on the approval gate -/

/-- Every key of the registry is a short name (far below the 3000-character
    observation cap). -/
lemma lookupTool_key_short {a : String} {info : ToolInfo}
    (h : lookupTool a = some info) : a.length ≤ 30 := by
  unfold lookupTool at h
  rcases ho : TOOLS.find? (fun kv => kv.1 = a) with _ | kv
  · rw [ho] at h
    simp at h
  · have hmem := List.mem_of_find?_eq_some ho
    have hka : kv.1 = a := by simpa using List.find?_some ho
    fin_cases hmem <;> (rw [← hka]; decide)

/-- C8: when the decided operation requires approval and the human declines
    (any answer whose stripped, lowercased form is not "y"), the iteration
    leaves the whole `AgentState` (all stage counts, the report flag, the
    error list, every other field) unchanged, invokes no handler (the result
    is the same for every handler assignment `fns`), and appends to the
    context-managed conversation exactly two turns — the decision and one
    observation turn stating the decline. -/
theorem declined_approval_is_frame
    (fns : String → AgentState → JVal → AgentState × String)
    (jloads : String → Option JVal) (st : AgentState) (msgs : List Msg)
    (llmResult : Option String) (ans : String) (info : ToolInfo)
    (hl : lookupTool (parse_response jloads (llmResponse llmResult)).action = some info)
    (hap : info.needs_approval = true)
    (hd : ¬ pyLower (pyStripS ans) = "y") :
    run_agent_iteration fns jloads st msgs llmResult ans =
      ⟨st,
       setSystemContent (truncate_messages msgs MAX_CONTEXT_CHARS) (build_system_prompt st)
         ++ [⟨"assistant", llmResponse llmResult⟩,
             ⟨"user", "Observation: " ++ ("User declined to run "
               ++ (parse_response jloads (llmResponse llmResult)).action ++ ".")⟩],
       .continued⟩ := by
  have hfin : ¬ (parse_response jloads (llmResponse llmResult)).action = "finish" := by
    intro hf
    rw [hf] at hl
    have hfl : lookupTool "finish" =
        some ⟨"End the agent loop. Takes \x27summary\x27 (str) with a final summary for the user.", false⟩ := by
      decide
    rw [hfl] at hl
    have := Option.some.inj hl
    rw [← this] at hap
    simp at hap
  have hshort := lookupTool_key_short hl
  simp only [run_agent_iteration]
  rw [if_neg hfin]
  simp only [hl, hap, if_true, if_pos hd]
  rw [if_neg (by
    simp only [String.length_append]
    have h1 : ("User declined to run " : String).length = 21 := by decide
    have h2 : ("." : String).length = 1 := by decide
    omega)]

/-- Witness for C8: a declined `scrape_jobs` approval at concrete inputs. -/
theorem declined_approval_is_frame_witness :
    run_agent_iteration (fun _ s _ => (s, "ran")) (fun _ => none) agentState0 witMsgs
        (some witResp) "n" =
      ⟨agentState0,
       setSystemContent (truncate_messages witMsgs MAX_CONTEXT_CHARS)
           (build_system_prompt agentState0)
         ++ [⟨"assistant", llmResponse (some witResp)⟩,
             ⟨"user", "Observation: " ++ ("User declined to run "
               ++ (parse_response (fun _ => none) (llmResponse (some witResp))).action
               ++ ".")⟩],
       .continued⟩ :=
  declined_approval_is_frame (fun _ s _ => (s, "ran")) (fun _ => none) agentState0 witMsgs
    (some witResp) "n"
    ⟨"Scrape job listings from hiring.cafe. Takes optional \x27method\x27 (auto/browser/api).", true⟩
    (by decide) rfl (by decide)

end JobAgent
